import Mathlib

/-!
Verification of the rectangle-detection scoring core
(`rectangle_detection.py`): containment predicate, exclusion filter,
area-ratio (Z1/Z2) calculation, and the two accuracy layers.

Rectangles and points carry non-negative integer coordinates (as produced
by the geometric extractor), so coordinates are modelled by `ℕ`; the
floating-point score arithmetic is modelled exactly over `ℚ`.
-/

namespace RectangleDetection

/-- A detected rectangle: `x`, `y`, `width`, `height` as produced by
`cv2.boundingRect` (non-negative integers). -/
structure Rect where
  x : ℕ
  y : ℕ
  width : ℕ
  height : ℕ
deriving DecidableEq

/-- `area = w * h`, as stored by `detect_red_rectangles` /
`detect_brown_rectangles_and_cyan_points`. -/
def Rect.area (r : Rect) : ℕ := r.width * r.height

/-- `center = (int(x + w/2), int(y + h/2))`; for non-negative integers the
`int()` truncation of the float division coincides with floor division. -/
def Rect.center (r : Rect) : ℕ × ℕ := (r.x + r.width / 2, r.y + r.height / 2)

/-- A detected cyan point: centroid coordinates and measured contour area
(the area is not used by the scoring core). -/
structure Point where
  x : ℕ
  y : ℕ
  area : ℚ
deriving DecidableEq

/-- `_is_inside_rectangle`: closed-boundary containment of a point in a
rectangle's bounding box. -/
def is_inside_rectangle (point : ℕ × ℕ) (rectangle : Rect) : Bool :=
  decide (rectangle.x ≤ point.1) && decide (point.1 ≤ rectangle.x + rectangle.width) &&
  decide (rectangle.y ≤ point.2) && decide (point.2 ≤ rectangle.y + rectangle.height)

/-- The per-rectangle test of `exclude_cyan_only_red_rectangles`: does any
brown rectangle's center lie inside `red` (`break` on first match)? -/
def has_brown_rectangle (red : Rect) (brown_rectangles : List Rect) : Bool :=
  brown_rectangles.any (fun brown_rect => is_inside_rectangle brown_rect.center red)

/-- The per-rectangle test of `exclude_cyan_only_red_rectangles`: does any
cyan point lie inside `red` (`break` on first match)? -/
def has_cyan_point (red : Rect) (cyan_points : List Point) : Bool :=
  cyan_points.any (fun cyan_point => is_inside_rectangle (cyan_point.x, cyan_point.y) red)

/-- The exclusion condition of `exclude_cyan_only_red_rectangles`:
`has_cyan_point and not has_brown_rectangle`. -/
def is_excluded (brown_rectangles : List Rect) (cyan_points : List Point) (red : Rect) : Bool :=
  has_cyan_point red cyan_points && !has_brown_rectangle red brown_rectangles

/-- `exclude_cyan_only_red_rectangles`: walks the red rectangles in order,
appending each to `excluded_rectangles` when it contains a cyan point but
no brown-rectangle center, and to `filtered_red_rectangles` otherwise.
Returns `(filtered_red_rectangles, excluded_rectangles)`. -/
def exclude_cyan_only_red_rectangles (red_rectangles brown_rectangles : List Rect)
    (cyan_points : List Point) : List Rect × List Rect :=
  match red_rectangles with
  | [] => ([], [])
  | red_rect :: rest =>
      let p := exclude_cyan_only_red_rectangles rest brown_rectangles cyan_points
      if is_excluded brown_rectangles cyan_points red_rect then
        (p.1, red_rect :: p.2)
      else
        (red_rect :: p.1, p.2)

/-- `sum(rect["area"] for rect in rects)`. -/
def total_area (rects : List Rect) : ℕ := (rects.map Rect.area).sum

/-- One side of `calculate_z_values`: when the total area is positive every
rectangle contributes `area / total`; when it is zero the loop appends
nothing and the sequence is empty. -/
def z_values (rects : List Rect) : List ℚ :=
  if 0 < total_area rects then
    rects.map (fun rect => (rect.area : ℚ) / (total_area rects : ℚ))
  else []

/-- `calculate_z_values`: Z1 over the (filtered) red rectangles, Z2 over
the brown rectangles. -/
def calculate_z_values (red_rectangles brown_rectangles : List Rect) : List ℚ × List ℚ :=
  (z_values red_rectangles, z_values brown_rectangles)

/-- `calculate_first_layer_accuracy`: over the first
`min(len(z1), len(z2))` indices, `P = 1 - |z1 - z2| / max(z1, z2)` when
`max(z1, z2) > 0`, else `0.0`. -/
def calculate_first_layer_accuracy (z1_values z2_values : List ℚ) : List ℚ :=
  (List.range (min z1_values.length z2_values.length)).map fun i =>
    if 0 < max (z1_values.getD i 0) (z2_values.getD i 0) then
      1 - |z1_values.getD i 0 - z2_values.getD i 0| /
          max (z1_values.getD i 0) (z2_values.getD i 0)
    else 0

/-- `matches_in_red`: the count of brown rectangles whose center lies in
`red_rect`. -/
def matches_in_red (brown_rectangles : List Rect) (red_rect : Rect) : ℕ :=
  brown_rectangles.countP (fun brown_rect => is_inside_rectangle brown_rect.center red_rect)

/-- `total_targets_in_red`: `matches_in_red` plus the count of cyan points
lying in `red_rect`. -/
def total_targets_in_red (brown_rectangles : List Rect) (cyan_points : List Point)
    (red_rect : Rect) : ℕ :=
  matches_in_red brown_rectangles red_rect +
  cyan_points.countP (fun cyan_point => is_inside_rectangle (cyan_point.x, cyan_point.y) red_rect)

/-- One iteration of the `calculate_second_layer_accuracy` loop: the
accumulator `(sum_ratios, valid_matches)` gains `matches / targets` and a
count of one when `targets > 0`, and is unchanged otherwise. -/
def second_layer_step (brown_rectangles : List Rect) (cyan_points : List Point)
    (acc : ℚ × ℕ) (red_rect : Rect) : ℚ × ℕ :=
  if 0 < total_targets_in_red brown_rectangles cyan_points red_rect then
    (acc.1 + (matches_in_red brown_rectangles red_rect : ℚ) /
        (total_targets_in_red brown_rectangles cyan_points red_rect : ℚ),
     acc.2 + 1)
  else acc

/-- `calculate_second_layer_accuracy`: accumulates `(sum_ratios,
valid_matches)` over the red rectangles, adding `matches / targets` and
incrementing the count only when `targets > 0`, then divides; `0.0` when
there are no red rectangles or no valid matches. -/
def calculate_second_layer_accuracy (red_rectangles brown_rectangles : List Rect)
    (cyan_points : List Point) : ℚ :=
  if red_rectangles.isEmpty then 0 else
  let acc := red_rectangles.foldl (second_layer_step brown_rectangles cyan_points) (0, 0)
  if 0 < acc.2 then acc.1 / (acc.2 : ℚ) else 0

/-- The result structure assembled by `process_images` from the scoring
steps (the non-image part of its flow). -/
structure ScoreResult where
  filtered : List Rect
  excluded : List Rect
  z1 : List ℚ
  z2 : List ℚ
  first_layer : List ℚ
  second_layer : ℚ
deriving DecidableEq

/-- The scoring pipeline of `process_images`: exclusion, then Z values on
the filtered reference set, then both accuracy layers. -/
def score (red_rectangles brown_rectangles : List Rect) (cyan_points : List Point) :
    ScoreResult :=
  let p := exclude_cyan_only_red_rectangles red_rectangles brown_rectangles cyan_points
  let z := calculate_z_values p.1 brown_rectangles
  { filtered := p.1
    excluded := p.2
    z1 := z.1
    z2 := z.2
    first_layer := calculate_first_layer_accuracy z.1 z.2
    second_layer := calculate_second_layer_accuracy p.1 brown_rectangles cyan_points }

end RectangleDetection

namespace RectangleDetection

/-! ## Helper lemmas -/

/-- The exclusion loop is the partition of the input by the exclusion
condition, both halves in input order. -/
theorem exclude_eq_filter (reds browns : List Rect) (cyans : List Point) :
    exclude_cyan_only_red_rectangles reds browns cyans =
      (reds.filter fun r => !is_excluded browns cyans r,
       reds.filter fun r => is_excluded browns cyans r) := by
  induction reds with
  | nil => rfl
  | cons red rest ih =>
    simp only [exclude_cyan_only_red_rectangles, ih, List.filter_cons]
    cases h : is_excluded browns cyans red <;> simp [h]

/-- Splitting a list by a boolean predicate preserves total length. -/
theorem length_filter_not_add_length_filter {α : Type} (p : α → Bool) (l : List α) :
    (l.filter fun a => !p a).length + (l.filter p).length = l.length := by
  induction l with
  | nil => rfl
  | cons a t ih => cases h : p a <;> simp [List.filter_cons, h, ← ih] <;> omega

/-- The filtered output of the exclusion loop, as a filter. -/
theorem exclude_fst (reds browns : List Rect) (cyans : List Point) :
    (exclude_cyan_only_red_rectangles reds browns cyans).1 =
      reds.filter fun r => !is_excluded browns cyans r := by
  rw [exclude_eq_filter]

/-- The excluded output of the exclusion loop, as a filter. -/
theorem exclude_snd (reds browns : List Rect) (cyans : List Point) :
    (exclude_cyan_only_red_rectangles reds browns cyans).2 =
      reds.filter fun r => is_excluded browns cyans r := by
  rw [exclude_eq_filter]

/-- An element not satisfying the predicate is not counted in the
filtered list. -/
theorem count_filter_of_neg {α : Type} [DecidableEq α] {p : α → Bool} {a : α}
    (l : List α) (h : p a = false) : (l.filter p).count a = 0 := by
  refine List.count_eq_zero.mpr fun hmem => ?_
  have := (List.mem_filter.mp hmem).2
  rw [h] at this
  exact Bool.false_ne_true this

/-- The exclusion condition unfolded to the spec-level containment
statements. -/
theorem is_excluded_iff (browns : List Rect) (cyans : List Point) (r : Rect) :
    is_excluded browns cyans r = true ↔
      ((∃ c ∈ cyans, is_inside_rectangle (c.x, c.y) r) ∧
       ¬ ∃ b ∈ browns, is_inside_rectangle b.center r) := by
  simp [is_excluded, has_cyan_point, has_brown_rectangle, List.any_eq_true]

/-! ## Claim theorems -/

/-- **C1.** A reference rectangle `r` of the input is excluded iff some
candidate (cyan) point is contained in it and no candidate (brown)
rectangle's center is contained in it; every other reference rectangle —
in particular one containing no candidate marker at all — appears in the
filtered output. -/
theorem exclusion_rule (reds browns : List Rect) (cyans : List Point) (r : Rect)
    (hr : r ∈ reds) :
    ((r ∈ (exclude_cyan_only_red_rectangles reds browns cyans).2) ↔
      ((∃ c ∈ cyans, is_inside_rectangle (c.x, c.y) r) ∧
       ¬ ∃ b ∈ browns, is_inside_rectangle b.center r)) ∧
    ((r ∈ (exclude_cyan_only_red_rectangles reds browns cyans).1) ↔
      ¬((∃ c ∈ cyans, is_inside_rectangle (c.x, c.y) r) ∧
        ¬ ∃ b ∈ browns, is_inside_rectangle b.center r)) := by
  rw [exclude_eq_filter]
  rw [← is_excluded_iff]
  constructor
  · simp [List.mem_filter, hr]
  · simp [List.mem_filter, hr]

/-- Witness for **C1**: a reference rectangle with no candidate markers at
all is kept. -/
theorem exclusion_rule_witness :
    (⟨0, 0, 1, 1⟩ : Rect) ∈ [(⟨0, 0, 1, 1⟩ : Rect)] ∧
    (⟨0, 0, 1, 1⟩ : Rect) ∈ (exclude_cyan_only_red_rectangles [⟨0, 0, 1, 1⟩] [] []).1 :=
  ⟨List.mem_singleton.mpr rfl,
   ((exclusion_rule [⟨0, 0, 1, 1⟩] [] [] ⟨0, 0, 1, 1⟩ (List.mem_singleton.mpr rfl)).2).mpr
     (by simp)⟩

/-- **C4.** The exclusion step partitions the reference sequence exactly:
both outputs are order-preserving subsequences of the input, they are
disjoint, every input rectangle goes to exactly one of them (multiplicity
counted), and the lengths add up. -/
theorem exclusion_partition (reds browns : List Rect) (cyans : List Point) :
    (List.Sublist (exclude_cyan_only_red_rectangles reds browns cyans).1 reds ∧
     List.Sublist (exclude_cyan_only_red_rectangles reds browns cyans).2 reds) ∧
    (∀ r : Rect, r ∈ (exclude_cyan_only_red_rectangles reds browns cyans).1 →
        r ∉ (exclude_cyan_only_red_rectangles reds browns cyans).2) ∧
    (∀ r : Rect, (exclude_cyan_only_red_rectangles reds browns cyans).1.count r +
        (exclude_cyan_only_red_rectangles reds browns cyans).2.count r = reds.count r) ∧
    (exclude_cyan_only_red_rectangles reds browns cyans).1.length +
        (exclude_cyan_only_red_rectangles reds browns cyans).2.length = reds.length := by
  rw [exclude_fst, exclude_snd]
  refine ⟨⟨List.filter_sublist _, List.filter_sublist _⟩, ?_, ?_, ?_⟩
  · intro r h1 h2
    rw [List.mem_filter] at h1 h2
    rw [h2.2] at h1
    exact absurd h1.2 (by simp)
  · intro r
    cases h : is_excluded browns cyans r with
    | false =>
      have hcf : (reds.filter fun x => !is_excluded browns cyans x).count r =
          reds.count r := List.count_filter (by simp [h])
      rw [hcf, count_filter_of_neg reds h, Nat.add_zero]
    | true =>
      have hcf : (reds.filter fun x => is_excluded browns cyans x).count r =
          reds.count r := List.count_filter (by simp [h])
      rw [hcf, count_filter_of_neg reds (show (!is_excluded browns cyans r) = false by simp [h]),
        Nat.zero_add]
  · exact length_filter_not_add_length_filter _ reds

/-- Witness for **C4**: the disjointness, counting and length clauses at a
concrete input. -/
theorem exclusion_partition_witness :
    ((⟨0, 0, 1, 1⟩ : Rect) ∈ (exclude_cyan_only_red_rectangles [⟨0, 0, 1, 1⟩] [] []).1 ∧
      (⟨0, 0, 1, 1⟩ : Rect) ∉ (exclude_cyan_only_red_rectangles [⟨0, 0, 1, 1⟩] [] []).2) ∧
    ((exclude_cyan_only_red_rectangles [⟨0, 0, 1, 1⟩] [] []).1.count ⟨0, 0, 1, 1⟩ +
      (exclude_cyan_only_red_rectangles [⟨0, 0, 1, 1⟩] [] []).2.count ⟨0, 0, 1, 1⟩ = 1) ∧
    ((exclude_cyan_only_red_rectangles [⟨0, 0, 1, 1⟩] [] []).1.length +
      (exclude_cyan_only_red_rectangles [⟨0, 0, 1, 1⟩] [] []).2.length = 1) :=
  ⟨⟨by decide,
    (exclusion_partition [⟨0, 0, 1, 1⟩] [] []).2.1 ⟨0, 0, 1, 1⟩ (by decide)⟩,
   (exclusion_partition [⟨0, 0, 1, 1⟩] [] []).2.2.1 ⟨0, 0, 1, 1⟩,
   (exclusion_partition [⟨0, 0, 1, 1⟩] [] []).2.2.2⟩

/-- Element formula for the first-layer scorer at an in-range index. -/
theorem first_layer_getElem (z1 z2 : List ℚ) (i : ℕ)
    (h : i < min z1.length z2.length) :
    (calculate_first_layer_accuracy z1 z2)[i]? =
      some (if 0 < max (z1.getD i 0) (z2.getD i 0)
            then 1 - |z1.getD i 0 - z2.getD i 0| / max (z1.getD i 0) (z2.getD i 0)
            else 0) := by
  unfold calculate_first_layer_accuracy
  rw [List.getElem?_map, List.getElem?_range h]
  rfl

/-- **C2.** The first-layer scorer scores exactly the first
`min(len(Z1), len(Z2))` positional index pairs, and at each paired index
`i` the score is `1 - |Z1_i - Z2_i| / max(Z1_i, Z2_i)` when
`max(Z1_i, Z2_i) > 0` and `0` otherwise; surplus entries of the longer
sequence contribute nothing. -/
theorem first_layer_pairing (z1 z2 : List ℚ) :
    (calculate_first_layer_accuracy z1 z2).length = min z1.length z2.length ∧
    ∀ i : ℕ, i < min z1.length z2.length →
      (calculate_first_layer_accuracy z1 z2)[i]? =
        some (if 0 < max (z1.getD i 0) (z2.getD i 0)
              then 1 - |z1.getD i 0 - z2.getD i 0| / max (z1.getD i 0) (z2.getD i 0)
              else 0) := by
  refine ⟨?_, fun i h => first_layer_getElem z1 z2 i h⟩
  unfold calculate_first_layer_accuracy
  rw [List.length_map, List.length_range]

/-- Witness for **C2** at `Z1 = [1, 2]`, `Z2 = [2]`: only index 0 is in
range. -/
theorem first_layer_pairing_witness :
    0 < min ([(1 : ℚ), 2].length) ([(2 : ℚ)].length) ∧
    (calculate_first_layer_accuracy [(1 : ℚ), 2] [(2 : ℚ)])[0]? =
      some (if 0 < max ([(1 : ℚ), 2].getD 0 0) ([(2 : ℚ)].getD 0 0)
            then 1 - |[(1 : ℚ), 2].getD 0 0 - [(2 : ℚ)].getD 0 0| /
                max ([(1 : ℚ), 2].getD 0 0) ([(2 : ℚ)].getD 0 0)
            else 0) :=
  ⟨by decide, (first_layer_pairing [(1 : ℚ), 2] [(2 : ℚ)]).2 0 (by decide)⟩

/-- **C5 counterexample.** At `Z1 = [0]`, `Z2 = [0]` the paired values at
index 0 are equal, yet the produced score is `0.0` and not `1.0` (the
`max = 0` branch wins), refuting the claim as stated. -/
theorem first_layer_equal_counterexample :
    [(0 : ℚ)].getD 0 0 = [(0 : ℚ)].getD 0 0 ∧
    calculate_first_layer_accuracy [(0 : ℚ)] [(0 : ℚ)] = [0] ∧ (0 : ℚ) ≠ 1 :=
  ⟨rfl, by decide, by decide⟩

/-- **C5 (amended).** If the paired values at index `i` are equal *and
positive*, the first-layer score at `i` is exactly `1.0` (when both are
zero the score is `0.0` instead). -/
theorem first_layer_equal_pos (z1 z2 : List ℚ) (i : ℕ)
    (h : i < min z1.length z2.length)
    (heq : z1.getD i 0 = z2.getD i 0) (hpos : 0 < z1.getD i 0) :
    (calculate_first_layer_accuracy z1 z2)[i]? = some 1 := by
  rw [first_layer_getElem z1 z2 i h, ← heq, max_self, if_pos hpos, sub_self, abs_zero,
    zero_div, sub_zero]

/-- Witness for **C5 (amended)** at `Z1 = Z2 = [1]`. -/
theorem first_layer_equal_pos_witness :
    (0 < min ([(1 : ℚ)].length) ([(1 : ℚ)].length) ∧
     [(1 : ℚ)].getD 0 0 = [(1 : ℚ)].getD 0 0 ∧ 0 < [(1 : ℚ)].getD 0 0) ∧
    (calculate_first_layer_accuracy [(1 : ℚ)] [(1 : ℚ)])[0]? = some 1 :=
  ⟨⟨by decide, rfl, by decide⟩,
   first_layer_equal_pos [(1 : ℚ)] [(1 : ℚ)] 0 (by decide) rfl (by decide)⟩

/-- **C10.** The first-layer output has length exactly
`min(len(Z1), len(Z2))`, and a degenerate pair with `max(Z1_i, Z2_i) = 0`
still produces an output entry of value `0.0` rather than being skipped. -/
theorem first_layer_length_min (z1 z2 : List ℚ) :
    (calculate_first_layer_accuracy z1 z2).length = min z1.length z2.length ∧
    ∀ i : ℕ, i < min z1.length z2.length →
      max (z1.getD i 0) (z2.getD i 0) ≤ 0 →
      (calculate_first_layer_accuracy z1 z2)[i]? = some 0 := by
  constructor
  · unfold calculate_first_layer_accuracy
    rw [List.length_map, List.length_range]
  · intro i h hmax
    rw [first_layer_getElem z1 z2 i h, if_neg (not_lt.mpr hmax)]

/-- Witness for **C10** at `Z1 = [0, 5]`, `Z2 = [0]`: one entry, and the
degenerate pair at index 0 yields `0.0`. -/
theorem first_layer_length_min_witness :
    (calculate_first_layer_accuracy [(0 : ℚ), 5] [(0 : ℚ)]).length =
      min ([(0 : ℚ), 5].length) ([(0 : ℚ)].length) ∧
    0 < min ([(0 : ℚ), 5].length) ([(0 : ℚ)].length) ∧
    max ([(0 : ℚ), 5].getD 0 0) ([(0 : ℚ)].getD 0 0) ≤ 0 ∧
    (calculate_first_layer_accuracy [(0 : ℚ), 5] [(0 : ℚ)])[0]? = some 0 :=
  ⟨(first_layer_length_min [(0 : ℚ), 5] [(0 : ℚ)]).1, by decide, by decide,
   (first_layer_length_min [(0 : ℚ), 5] [(0 : ℚ)]).2 0 (by decide) (by decide)⟩

/-- The total area, cast to `ℚ`, is the sum of the cast areas. -/
theorem cast_total_area (rects : List Rect) :
    ((total_area rects : ℚ)) = (rects.map fun rect => (rect.area : ℚ)).sum := by
  simp only [total_area, Nat.cast_list_sum, List.map_map]
  rfl

/-- **C6.** With exact rational arithmetic the Z sequence sums to exactly
`1` whenever the input list is non-empty with positive total area, and is
the empty sequence whenever the list is empty or all areas are zero. -/
theorem z_values_sum_one (rects : List Rect) :
    (rects ≠ [] → 0 < total_area rects → (z_values rects).sum = 1) ∧
    ((rects = [] ∨ ∀ r ∈ rects, r.area = 0) → z_values rects = []) := by
  constructor
  · intro _ hpos
    have hT : ((total_area rects : ℚ)) ≠ 0 :=
      Nat.cast_ne_zero.mpr (Nat.pos_iff_ne_zero.mp hpos)
    unfold z_values
    rw [if_pos hpos]
    simp only [div_eq_mul_inv]
    rw [List.sum_map_mul_right, ← cast_total_area]
    exact mul_inv_cancel₀ hT
  · rintro (rfl | hall)
    · rfl
    · have h0 : total_area rects = 0 := by
        simp only [total_area]
        refine List.sum_eq_zero fun x hx => ?_
        obtain ⟨r, hr, rfl⟩ := List.mem_map.mp hx
        exact hall r hr
      simp [z_values, h0]

/-- Witness for **C6** at a one-rectangle list of area 6, and at the empty
list. -/
theorem z_values_sum_one_witness :
    (([(⟨0, 0, 2, 3⟩ : Rect)] ≠ []) ∧ 0 < total_area [(⟨0, 0, 2, 3⟩ : Rect)] ∧
      (z_values [(⟨0, 0, 2, 3⟩ : Rect)]).sum = 1) ∧
    z_values ([] : List Rect) = [] :=
  ⟨⟨by decide, by decide,
    (z_values_sum_one [(⟨0, 0, 2, 3⟩ : Rect)]).1 (by decide) (by decide)⟩,
   (z_values_sum_one ([] : List Rect)).2 (Or.inl rfl)⟩

/-- **C8.** Every rectangle (coordinates are the non-negative integers
produced by the extractor; the derived center uses floor division)
contains its own derived center. -/
theorem center_self_contained (r : Rect) :
    is_inside_rectangle r.center r = true := by
  simp only [is_inside_rectangle, Rect.center, Bool.and_eq_true, decide_eq_true_eq]
  refine ⟨⟨⟨Nat.le_add_right _ _, ?_⟩, Nat.le_add_right _ _⟩, ?_⟩ <;>
    exact Nat.add_le_add_left (Nat.div_le_self _ _) _

/-- The second-layer fold, characterised: from start `(s, k)` it adds the
ratio sum over the rectangles with a positive target count, and their
number. -/
theorem second_layer_foldl (browns : List Rect) (cyans : List Point) (reds : List Rect) :
    ∀ (s : ℚ) (k : ℕ),
      reds.foldl (second_layer_step browns cyans) (s, k) =
        (s + ((reds.filter fun r => 0 < total_targets_in_red browns cyans r).map
            fun r => (matches_in_red browns r : ℚ) /
              (total_targets_in_red browns cyans r : ℚ)).sum,
         k + (reds.filter fun r => 0 < total_targets_in_red browns cyans r).length) := by
  induction reds with
  | nil => intro s k; simp
  | cons red rest ih =>
    intro s k
    rw [List.foldl_cons, List.filter_cons]
    by_cases h : 0 < total_targets_in_red browns cyans red
    · have hstep : second_layer_step browns cyans (s, k) red =
          (s + (matches_in_red browns red : ℚ) /
            (total_targets_in_red browns cyans red : ℚ), k + 1) := by
        simp [second_layer_step, h]
      rw [hstep, ih, if_pos (by simpa using h), List.map_cons, List.sum_cons,
        List.length_cons]
      simp only [Prod.mk.injEq]
      exact ⟨by ring, by omega⟩
    · have hstep : second_layer_step browns cyans (s, k) red = (s, k) := by
        simp [second_layer_step, h]
      rw [hstep, ih, if_neg (by simpa using h)]

/-- Each per-rectangle ratio is in `[0, 1]`, so the ratio sum over any
list of rectangles is non-negative and at most the list length. -/
theorem ratio_sum_bounds (browns : List Rect) (cyans : List Point) (l : List Rect) :
    0 ≤ (l.map fun r => (matches_in_red browns r : ℚ) /
          (total_targets_in_red browns cyans r : ℚ)).sum ∧
    (l.map fun r => (matches_in_red browns r : ℚ) /
          (total_targets_in_red browns cyans r : ℚ)).sum ≤ (l.length : ℚ) := by
  induction l with
  | nil => simp
  | cons red rest ih =>
    rw [List.map_cons, List.sum_cons, List.length_cons]
    have h0 : (0 : ℚ) ≤ (matches_in_red browns red : ℚ) /
        (total_targets_in_red browns cyans red : ℚ) :=
      div_nonneg (Nat.cast_nonneg _) (Nat.cast_nonneg _)
    have h1 : (matches_in_red browns red : ℚ) /
        (total_targets_in_red browns cyans red : ℚ) ≤ 1 := by
      rcases Nat.eq_zero_or_pos (total_targets_in_red browns cyans red) with h | h
      · simp [h]
      · rw [div_le_one (by exact_mod_cast h)]
        exact_mod_cast (Nat.le_add_right _ _ :
          matches_in_red browns red ≤ total_targets_in_red browns cyans red)
    refine ⟨add_nonneg h0 ih.1, ?_⟩
    push_cast
    linarith [ih.2]

/-- **C3.** The second-layer score is the sum of `matches_i / targets_i`
over the reference rectangles with `targets_i > 0`, divided by the number
of such rectangles; zero-target rectangles contribute to neither the sum
nor the count, and the score is `0.0` when no rectangle has a positive
target count (in particular when the reference list is empty). -/
theorem second_layer_formula (reds browns : List Rect) (cyans : List Point) :
    calculate_second_layer_accuracy reds browns cyans =
      if (reds.filter fun r => 0 < total_targets_in_red browns cyans r) = [] then 0
      else ((reds.filter fun r => 0 < total_targets_in_red browns cyans r).map
              fun r => (matches_in_red browns r : ℚ) /
                (total_targets_in_red browns cyans r : ℚ)).sum /
           ((reds.filter fun r => 0 < total_targets_in_red browns cyans r).length : ℚ) := by
  simp only [calculate_second_layer_accuracy]
  rw [second_layer_foldl browns cyans reds 0 0]
  by_cases hf : (reds.filter fun r => 0 < total_targets_in_red browns cyans r) = []
  · rw [if_pos hf]
    simp [hf]
  · rw [if_neg hf]
    have hlen : 0 < (reds.filter fun r => 0 < total_targets_in_red browns cyans r).length :=
      List.length_pos.mpr hf
    have hne : reds.isEmpty = false := by
      cases reds with
      | nil => exact absurd rfl hf
      | cons a t => rfl
    simp only [hne, Bool.false_eq_true, if_false, zero_add]
    rw [if_pos hlen]

/-- **C7.** For every input — no precondition — the second-layer score
lies in `[0, 1]`, and it equals `0.0` when the filtered reference list is
empty. -/
theorem second_layer_bounds (reds browns : List Rect) (cyans : List Point) :
    (0 ≤ calculate_second_layer_accuracy reds browns cyans ∧
     calculate_second_layer_accuracy reds browns cyans ≤ 1) ∧
    (reds = [] → calculate_second_layer_accuracy reds browns cyans = 0) := by
  refine ⟨?_, fun h => by rw [h]; rfl⟩
  simp only [calculate_second_layer_accuracy]
  rw [second_layer_foldl browns cyans reds 0 0]
  simp only [zero_add]
  by_cases he : reds.isEmpty
  · simp [he]
  · simp only [he, Bool.false_eq_true, if_false]
    by_cases hlen :
        0 < (reds.filter fun r => 0 < total_targets_in_red browns cyans r).length
    · rw [if_pos hlen]
      have hb := ratio_sum_bounds browns cyans
        (reds.filter fun r => 0 < total_targets_in_red browns cyans r)
      have hkpos : (0 : ℚ) <
          ((reds.filter fun r => 0 < total_targets_in_red browns cyans r).length : ℚ) := by
        exact_mod_cast hlen
      exact ⟨div_nonneg hb.1 (le_of_lt hkpos), (div_le_one hkpos).mpr hb.2⟩
    · rw [if_neg hlen]
      exact ⟨le_refl 0, by norm_num⟩

/-- Witness for **C7**: the empty-reference clause at a concrete input. -/
theorem second_layer_bounds_witness :
    ([] : List Rect) = [] ∧ calculate_second_layer_accuracy [] [] [] = 0 :=
  ⟨rfl, (second_layer_bounds [] [] []).2 rfl⟩

/-- **C9.** End-to-end scenario C: with reference rectangles
`{0,0,100,100}` and `{200,0,100,100}`, one candidate rectangle
`{10,10,40,40}` (center inside the first), and one candidate point
`(250,50)` (inside the second), the pipeline keeps the first rectangle,
excludes the second, and yields `Z1 = [1]`, `Z2 = [1]`,
`first_layer_scores = [1]`, `second_layer_score = 1`. -/
theorem pipeline_scenario_c :
    score [⟨0, 0, 100, 100⟩, ⟨200, 0, 100, 100⟩] [⟨10, 10, 40, 40⟩] [⟨250, 50, 5⟩] =
      { filtered := [⟨0, 0, 100, 100⟩], excluded := [⟨200, 0, 100, 100⟩],
        z1 := [1], z2 := [1], first_layer := [1], second_layer := 1 } := by
  have hex : exclude_cyan_only_red_rectangles
      [⟨0, 0, 100, 100⟩, ⟨200, 0, 100, 100⟩] [⟨10, 10, 40, 40⟩] [⟨250, 50, 5⟩] =
      ([⟨0, 0, 100, 100⟩], [⟨200, 0, 100, 100⟩]) := by decide
  have hz1 : z_values [(⟨0, 0, 100, 100⟩ : Rect)] = [1] := by
    norm_num [z_values, total_area, Rect.area]
  have hz2 : z_values [(⟨10, 10, 40, 40⟩ : Rect)] = [1] := by
    norm_num [z_values, total_area, Rect.area]
  have hfl : calculate_first_layer_accuracy [1] [1] = [1] := by
    norm_num [calculate_first_layer_accuracy, List.range_succ, List.range_zero,
      List.getD_cons_zero]
  have hm : matches_in_red [⟨10, 10, 40, 40⟩] ⟨0, 0, 100, 100⟩ = 1 := by decide
  have ht : total_targets_in_red [⟨10, 10, 40, 40⟩] [⟨250, 50, 5⟩] ⟨0, 0, 100, 100⟩ = 1 := by
    decide
  have hsl : calculate_second_layer_accuracy
      [⟨0, 0, 100, 100⟩] [⟨10, 10, 40, 40⟩] [⟨250, 50, 5⟩] = 1 := by
    simp [calculate_second_layer_accuracy, second_layer_step, hm, ht]
  simp only [score, calculate_z_values, hex, hz1, hz2, hfl, hsl]

end RectangleDetection
